import Mathlib

/-!
Verification development for the Maya assistant backend
(`backend/app/services/ai_service.py`, `pinecone_service.py`,
`neo4j_service.py`, `embedding_service.py` and `backend/app/celery_worker.py`).

The Python code is shallowly embedded: module-global mutable state
(`FAILED_PROVIDERS`, `current_gemini_key_index`, the Mongo/Neo4j/Pinecone
stores) is threaded explicitly, wall-clock times are integers, external
collaborators (provider SDK calls, the embedding service, the vector index)
are oracle parameters, and every Python exception path is an explicit
`Option`/`Except` branch.  Floating-point similarity scores are modelled as
rationals; only their comparison against the constant threshold matters.
-/

/-! ## Python string helpers

`str.strip` and `str.replace` as used by `extract_facts_from_text`
(`ai_service.py`, line 238).  Python's `strip()` removes the whitespace
characters space, tab, newline, carriage return, vertical tab and form feed
from both ends; `replace` rewrites all non-overlapping occurrences left to
right (both call sites use nonempty patterns). -/

def isPySpace (c : Char) : Bool :=
  c = ' ' || c = '\t' || c = '\n' || c = '\r' || c = Char.ofNat 11 || c = Char.ofNat 12

def stripList (l : List Char) : List Char :=
  ((l.dropWhile isPySpace).reverse.dropWhile isPySpace).reverse

def pyStrip (s : String) : String :=
  ⟨stripList s.toList⟩

def replaceListAux (old new : List Char) : Nat → List Char → List Char
  | 0, s => s
  | Nat.succ fuel, s =>
    match s with
    | [] => []
    | c :: t =>
      if old ≠ [] ∧ old.isPrefixOf (c :: t) then
        new ++ replaceListAux old new fuel ((c :: t).drop old.length)
      else
        c :: replaceListAux old new fuel t

def pyReplace (s old new : String) : String :=
  ⟨replaceListAux old.toList new.toList s.toList.length s.toList⟩

/-! ## JSON values and `json.loads`

`json.loads` (Python standard library) is modelled by a recursive-descent
parser over the character list, with a fuel argument for termination.  The
model covers the JSON fragment actually exchanged by this code base:
objects, arrays, strings without escape sequences, integer numerals,
booleans and null.  Like `json.loads`, the parser rejects any input with
leading or trailing non-whitespace text around the single top-level value,
which is what makes prose-wrapped model output unparseable. -/

inductive Json where
  | null : Json
  | bool (b : Bool) : Json
  | num (n : Int) : Json
  | str (s : String) : Json
  | arr (elems : List Json) : Json
  | obj (fields : List (String × Json)) : Json

def lbrace : Char := Char.ofNat 123

def rbrace : Char := Char.ofNat 125

def skipWs : List Char → List Char
  | [] => []
  | c :: t => if c = ' ' || c = '\n' || c = '\t' || c = '\r' then skipWs t else c :: t

/-- Body of a JSON string after the opening quote: the collected characters
and the remainder after the closing quote.  Escape sequences are outside the
modelled fragment and fail. -/
def parseStrBody : List Char → Option (List Char × List Char)
  | [] => none
  | c :: t =>
    if c = '"' then some ([], t)
    else if c = '\\' then none
    else match parseStrBody t with
      | some (s, r) => some (c :: s, r)
      | none => none

def takeDigits : List Char → List Char × List Char
  | [] => ([], [])
  | c :: t =>
    if c.isDigit then
      match takeDigits t with
      | (ds, r) => (c :: ds, r)
    else ([], c :: t)

def digitsToNat (l : List Char) : Nat :=
  l.foldl (fun acc c => acc * 10 + (c.toNat - 48)) 0

mutual

def parseVal : Nat → List Char → Option (Json × List Char)
  | 0, _ => none
  | Nat.succ fuel, input =>
    match skipWs input with
    | [] => none
    | c :: t =>
      if c = 'n' then
        if ['u', 'l', 'l'].isPrefixOf t then some (Json.null, t.drop 3) else none
      else if c = 't' then
        if ['r', 'u', 'e'].isPrefixOf t then some (Json.bool true, t.drop 3) else none
      else if c = 'f' then
        if ['a', 'l', 's', 'e'].isPrefixOf t then some (Json.bool false, t.drop 4) else none
      else if c = '"' then
        match parseStrBody t with
        | some (s, r) => some (Json.str ⟨s⟩, r)
        | none => none
      else if c = '-' then
        match takeDigits t with
        | ([], _) => none
        | (ds, r) => some (Json.num (-(digitsToNat ds : Int)), r)
      else if c.isDigit then
        match takeDigits (c :: t) with
        | (ds, r) => some (Json.num (digitsToNat ds : Int), r)
      else if c = '[' then
        match skipWs t with
        | ']' :: r => some (Json.arr [], r)
        | r => match parseElems fuel r with
          | some (xs, r') => some (Json.arr xs, r')
          | none => none
      else if c = lbrace then
        match skipWs t with
        | c' :: r =>
          if c' = rbrace then some (Json.obj [], r)
          else match parseFields fuel (c' :: r) with
            | some (fs, r') => some (Json.obj fs, r')
            | none => none
        | [] => none
      else none

def parseElems : Nat → List Char → Option (List Json × List Char)
  | 0, _ => none
  | Nat.succ fuel, input =>
    match parseVal fuel input with
    | none => none
    | some (j, r) =>
      match skipWs r with
      | ',' :: r' =>
        match parseElems fuel r' with
        | some (xs, r'') => some (j :: xs, r'')
        | none => none
      | ']' :: r' => some ([j], r')
      | _ => none

def parseFields : Nat → List Char → Option (List (String × Json) × List Char)
  | 0, _ => none
  | Nat.succ fuel, input =>
    match skipWs input with
    | '"' :: t =>
      match parseStrBody t with
      | none => none
      | some (k, r) =>
        match skipWs r with
        | ':' :: r' =>
          match parseVal fuel r' with
          | none => none
          | some (v, r'') =>
            match skipWs r'' with
            | ',' :: r3 =>
              match parseFields fuel r3 with
              | some (fs, r4) => some ((⟨k⟩, v) :: fs, r4)
              | none => none
            | c :: r3 =>
              if c = rbrace then some ([(⟨k⟩, v)], r3) else none
            | [] => none
        | _ => none
    | _ => none

end

/-- Model of `json.loads`: parse one value and require only whitespace after
it (Python raises `JSONDecodeError` otherwise, which the callers turn into a
`None`/logged-error path). -/
def loads (s : String) : Option Json :=
  let cs := s.toList
  match parseVal (2 * cs.length + 4) cs with
  | some (j, rest) => if skipWs rest = [] then some j else none
  | none => none

/-! ## Circuit breaker state (`ai_service.py`, lines 31-42)

`FAILED_PROVIDERS` is a Python dict from provider name to the
`time.time()` of its last recorded failure; it is modelled as an
association list with unique keys, and wall-clock times as integers.
`_is_provider_available` mirrors the source line
`if failure_time and (time.time() - failure_time) < settings.AI_PROVIDER_FAILURE_TIMEOUT`,
including the Python truthiness test on the stored timestamp (a stored
`0` is falsy and therefore treated like an absent record). -/

abbrev FailMap := List (String × Int)

def getFail (m : FailMap) (k : String) : Option Int :=
  match m with
  | [] => none
  | (k', v) :: rest => if k' = k then some v else getFail rest k

def setFail (m : FailMap) (k : String) (v : Int) : FailMap :=
  match m with
  | [] => [(k, v)]
  | (k', v') :: rest => if k' = k then (k, v) :: rest else (k', v') :: setFail rest k v

/-- Model of `FAILED_PROVIDERS.pop(provider, None)`.  On a unique-keyed map
(the only kind a Python dict can be) removing every binding of the key is
the same as removing the one binding. -/
def removeFail (m : FailMap) (k : String) : FailMap :=
  m.filter (fun e => e.1 ≠ k)

def AI_PROVIDER_FAILURE_TIMEOUT : Int := 300

def isProviderAvailable (failed : FailMap) (timeout now : Int) (name : String) : Bool :=
  match getFail failed name with
  | none => true
  | some t => if t ≠ 0 ∧ now - t < timeout then false else true

/-! ## Gemini key rotation (`ai_service.py`, lines 47-68, `_try_gemini`)

The module globals `gemini_keys` (a fixed list of `n` keys) and
`current_gemini_key_index` are threaded explicitly.  The outcome of one
`generate_content` call on key `i` during this invocation is an oracle
`outcome i` (`none` = the SDK raised).  The `while True` loop tries the
current index, advances it modulo `n` on failure, and raises once the
index returns to the start index; that is exactly `n` failed attempts, so
fuel `n` reproduces the loop.  The result pairs the returned text (`none`
for the final `RuntimeError`) with the value of
`current_gemini_key_index` after the call. -/

def rotateKeys (outcome : Nat → Option String) (n : Nat) : Nat → Nat → Option String × Nat
  | idx, 0 => (none, idx)
  | idx, Nat.succ fuel =>
    match outcome idx with
    | some s => (some s, idx)
    | none => rotateKeys outcome n ((idx + 1) % n) fuel

def try_gemini (outcome : Nat → Option String) (n start : Nat) : Option String × Nat :=
  if n = 0 then (none, start) else rotateKeys outcome n start n

/-! ## Prompt construction (`ai_service.py`, lines 101-127) -/

structure ChatMsg where
  sender : String
  text : String

/-- Model of `_construct_prompt`.  Python's `if history:` is false both for
`None` and for an empty list, so the history parameter is a plain list. -/
def construct_prompt (prompt : String) (history : List ChatMsg)
    (context : Option String) (state : String) : String :=
  let p1 := "CURRENT CONVERSATIONAL STATE: " ++ state ++ "\n\n"
  let p2 := match context with
    | some c => p1 ++ "CONTEXT (from previous conversation):\n---\n" ++ c ++ "\n---\n\n"
    | none => p1
  let p3 :=
    if history.isEmpty then p2
    else
      p2 ++ "RECENT CHAT HISTORY:\n"
        ++ String.join (history.map (fun m =>
             (if m.sender = "user" then "Human" else "Assistant") ++ ": " ++ m.text ++ "\n"))
        ++ "\n"
  p3 ++ "NOW RESPOND TO THE HUMAN:\nHuman: " ++ prompt

/-! ## Generation gateway (`ai_service.py`, lines 132-198)

The three provider helpers are abstracted into one oracle
`attempt provider fullPrompt` (`none` = the helper raised, `some s` = it
returned text `s`); which concrete SDK is behind each name does not matter
to any property below, except that `gemini`'s oracle can be instantiated
with `try_gemini`.  Both loops also return, as instrumentation, the list
of providers whose attempt was actually invoked in this call. -/

def AI_PROVIDERS : List String := ["gemini", "anthropic", "cohere"]

def knownProvider (p : String) : Bool :=
  p = "gemini" || p = "anthropic" || p = "cohere"

def chatFallback : String :=
  "❌ All AI services are currently unavailable. Please try again later."

def summaryFallback : String :=
  "❌ Failed to generate summary. All AI services unavailable."

/-- Provider loop of `get_response` (lines 146-168): skip providers in
cooldown, try the rest in order, clear the failure record and return on the
first success, record `time.time()` on failure, and fall through to the
user-facing fallback string when nobody succeeded. -/
def getResponseLoop (attempt : String → String → Option String) (timeout now : Int)
    (fullPrompt : String) : List String → FailMap → String × FailMap × List String
  | [], failed => (chatFallback, failed, [])
  | p :: rest, failed =>
    if isProviderAvailable failed timeout now p then
      if knownProvider p then
        match attempt p fullPrompt with
        | some result => (result, removeFail failed p, [p])
        | none =>
          let r := getResponseLoop attempt timeout now fullPrompt rest (setFail failed p now)
          (r.1, r.2.1, p :: r.2.2)
      else
        getResponseLoop attempt timeout now fullPrompt rest failed
    else
      getResponseLoop attempt timeout now fullPrompt rest failed

def get_response (attempt : String → String → Option String) (timeout now : Int)
    (prompt : String) (history : List ChatMsg) (context : Option String) (state : String)
    (failed : FailMap) : String × FailMap × List String :=
  getResponseLoop attempt timeout now (construct_prompt prompt history context state)
    AI_PROVIDERS failed

def summary_prompt (text : String) : String :=
  "You are an expert at summarizing conversations. "
    ++ "Provide a concise, third-person summary of the following transcript:\n\n---\n"
    ++ text ++ "\n---\n\nSUMMARY:"

/-- Provider loop of `summarize_text` (lines 184-198).  Unlike
`get_response`, a success returns the text directly without touching
`FAILED_PROVIDERS` (there is no `pop` in the source on this path). -/
def summarizeLoop (attempt : String → String → Option String) (timeout now : Int)
    (fullPrompt : String) : List String → FailMap → String × FailMap × List String
  | [], failed => (summaryFallback, failed, [])
  | p :: rest, failed =>
    if isProviderAvailable failed timeout now p then
      if knownProvider p then
        match attempt p fullPrompt with
        | some result => (result, failed, [p])
        | none =>
          let r := summarizeLoop attempt timeout now fullPrompt rest (setFail failed p now)
          (r.1, r.2.1, p :: r.2.2)
      else
        summarizeLoop attempt timeout now fullPrompt rest failed
    else
      summarizeLoop attempt timeout now fullPrompt rest failed

def summarize_text (attempt : String → String → Option String) (timeout now : Int)
    (text : String) (failed : FailMap) : String × FailMap × List String :=
  summarizeLoop attempt timeout now (summary_prompt text) AI_PROVIDERS failed

/-! ## Fact extraction (`ai_service.py`, lines 203-242)

The extraction prompt's exact wording is a spec non-goal (§1) and no
property below depends on it; the definition keeps its shape
(instructions, the transcript between `---` fences, a trailing
`JSON output:`). -/

def extraction_prompt (text : String) : String :=
  "You are a highly intelligent data extraction agent. Analyze the following conversation "
    ++ "transcript. Extract key entities and relationships. "
    ++ "Present your findings in JSON format with keys entities and relationships.\n"
    ++ "Now, analyze this transcript:\n---\n" ++ text ++ "\n---\nJSON output:"

/-- Model of `extract_facts_from_text`: call `get_response` on the
extraction prompt, strip code fences, and `json.loads` the result;
any parse failure is caught and becomes `None`.  The function is total:
every exception path of the source is the `none` value. -/
def extract_facts_from_text (attempt : String → String → Option String) (timeout now : Int)
    (failed : FailMap) (text : String) : Option Json × FailMap :=
  let r := get_response attempt timeout now (extraction_prompt text) [] none
    "general_conversation" failed
  let jsonStr := pyStrip (pyReplace (pyReplace (pyStrip r.1) "```json" "") "```" "")
  (loads jsonStr, r.2.1)

/-! ## Python dict/list operations on parsed JSON (`celery_worker.py`)

The worker tasks manipulate the dict returned by
`extract_facts_from_text` directly.  Each helper mirrors one Python
expression, with `none`/`Option` for the exception paths that the tasks'
`except` blocks absorb. -/

def jlookup (fields : List (String × Json)) (k : String) : Option Json :=
  match fields with
  | [] => none
  | (k', v) :: rest => if k' = k then some v else jlookup rest k

def jset (fields : List (String × Json)) (k : String) (v : Json) : List (String × Json) :=
  match fields with
  | [] => []
  | (k', v') :: rest => if k' = k then (k, v) :: rest else (k', v') :: jset rest k v

/-- Lookup on a JSON object (`d[k]` / `d.get(k)` for a dict value). -/
def jsonGet (j : Json) (k : String) : Option Json :=
  match j with
  | Json.obj fields => jlookup fields k
  | _ => none

/-- Python truthiness of a JSON value (`if facts:`): empty dicts, empty
lists, empty strings, `0`, `False` and `None` are falsy. -/
def jsonTruthy : Json → Bool
  | Json.null => false
  | Json.bool b => b
  | Json.num n => n ≠ 0
  | Json.str s => s ≠ ""
  | Json.arr xs => ¬xs.isEmpty
  | Json.obj fs => ¬fs.isEmpty

def hasInfix : List Char → List Char → Bool
  | needle, [] => needle.isEmpty
  | needle, c :: t => needle.isPrefixOf (c :: t) || hasInfix needle t

/-- Python `k in facts`: key membership for dicts, element membership for
lists, substring test for strings; `in` on a number/bool/None raises
`TypeError` (`none`). -/
def jsonContains (j : Json) (k : String) : Option Bool :=
  match j with
  | Json.obj fields => some (fields.any (fun f => f.1 = k))
  | Json.arr xs => some (xs.any (fun x => match x with
      | Json.str s => s = k
      | _ => false))
  | Json.str s => some (hasInfix k.toList s.toList)
  | _ => none

/-- Model of `facts.setdefault(k, []).append(x)`: on a dict, a missing key
becomes `[x]` (inserted at the end, as Python dicts preserve insertion
order), a list value gets `x` appended; a non-dict receiver or a non-list
value raises (`none`). -/
def setdefaultAppend (j : Json) (k : String) (x : Json) : Option Json :=
  match j with
  | Json.obj fields =>
    match jlookup fields k with
    | none => some (Json.obj (fields ++ [(k, Json.arr [x])]))
    | some (Json.arr xs) => some (Json.obj (jset fields k (Json.arr (xs ++ [x]))))
    | some _ => none
  | _ => none

/-- Model of
`next((e for e in entities if e.get("label") == "PERSON"), None)`
(`celery_worker.py`, line 185): scan until the first dict whose `label`
equals `"PERSON"`; a non-dict element reached before a match raises
(`none`); `some none` means the generator was exhausted without a match. -/
def isPersonLabel : Option Json → Bool
  | some (Json.str l) => l = "PERSON"
  | _ => false

def findPersonEntity : List Json → Option (Option (List (String × Json)))
  | [] => some none
  | e :: rest =>
    match e with
    | Json.obj fields =>
      if isPersonLabel (jlookup fields "label") then some (some fields)
      else findPersonEntity rest
    | _ => none

/-! ## Worker post-processing of extracted facts (`celery_worker.py`)

`realtimeFactsToStore` is lines 178-194 of `extract_and_store_facts_task`
and `consolidationFactsToStore` is lines 141-145 of
`summarize_and_archive_task`, each mapping the extractor's result to the
dict passed to `neo4j_service.add_entities_and_relationships` (`none`:
that call never happens, because the guard failed or an exception was
caught by the task's `except`). -/

def rtUserEntity (uid : String) : Json :=
  Json.obj [("name", Json.str ("User_" ++ uid)), ("label", Json.str "USER"),
    ("id", Json.str uid)]

def consUserEntity (uid : String) : Json :=
  Json.obj [("name", Json.str ("User_" ++ uid)), ("label", Json.str "USER")]

def realtimeFactsToStore (facts : Option Json) (uid : String) : Option Json :=
  match facts with
  | none => none
  | some f =>
    if jsonTruthy f then
      match jsonContains f "entities", jsonContains f "relationships" with
      | some he, some hr =>
        if he || hr then
          match setdefaultAppend f "entities" (rtUserEntity uid) with
          | none => none
          | some f1 =>
            match f1 with
            | Json.obj fields1 =>
              match jlookup fields1 "entities" with
              | some (Json.arr xs) =>
                match findPersonEntity xs with
                | none => none
                | some none => some f1
                | some (some pf) =>
                  match jlookup pf "name" with
                  | some nameVal =>
                    setdefaultAppend f1 "relationships"
                      (Json.obj [("source", Json.str ("User_" ++ uid)),
                        ("target", nameVal), ("type", Json.str "IS_NAMED")])
                  | none => none
              | some _ => none
              | none => some f1
            | _ => none
        else none
      | _, _ => none
    else none

def consolidationFactsToStore (facts : Option Json) (uid : String) : Option Json :=
  match facts with
  | none => none
  | some f =>
    if jsonTruthy f then setdefaultAppend f "entities" (consUserEntity uid) else none

/-! ## Neo4j graph store (`neo4j_service.py`, lines 95-138)

Nodes are keyed by `(name, label)` — `MERGE (n:{label} {name: $name})` —
and `MERGE`d edges by the pair of matched endpoint nodes and the
relationship type; the relationship `MATCH` binds every node with the given
name regardless of label.  A failure anywhere inside the write transaction
(a missing or non-string `name`/`label`/`source`/`target`/`type`, or a
non-list value under either key) rolls the whole transaction back, which
the service catches, leaving the graph unchanged. -/

abbrev GraphNode := String × String

abbrev GraphEdge := GraphNode × GraphNode × String

structure Graph where
  nodes : List GraphNode
  edges : List GraphEdge
deriving DecidableEq

def insertNode (g : Graph) (n : GraphNode) : Graph :=
  if n ∈ g.nodes then g else { g with nodes := g.nodes ++ [n] }

def insertEdge (es : List GraphEdge) (e : GraphEdge) : List GraphEdge :=
  if e ∈ es then es else es ++ [e]

/-- Rows produced by `MATCH (source {name: $s}), (target {name: $t})`: the
cartesian product of the nodes carrying each name. -/
def edgeCandidates (nodes : List GraphNode) (src tgt ty : String) : List GraphEdge :=
  (nodes.filter (fun n => n.1 = src)).flatMap
    (fun ns => (nodes.filter (fun n => n.1 = tgt)).map (fun nt => (ns, nt, ty)))

def mergeEdge (g : Graph) (r : String × String × String) : Graph :=
  { g with edges := (edgeCandidates g.nodes r.1 r.2.1 r.2.2).foldl insertEdge g.edges }

def entityOfJson : Json → Option GraphNode
  | Json.obj fields =>
    match jlookup fields "name", jlookup fields "label" with
    | some (Json.str n), some (Json.str l) => some (n, l)
    | _, _ => none
  | _ => none

def relOfJson : Json → Option (String × String × String)
  | Json.obj fields =>
    match jlookup fields "source", jlookup fields "target", jlookup fields "type" with
    | some (Json.str s), some (Json.str t), some (Json.str ty) => some (s, t, ty)
    | _, _, _ => none
  | _ => none

/-- Transaction body `_create_graph_nodes_and_edges`: all entity `MERGE`s
run before all relationship `MERGE`s; any failure rolls everything back. -/
def create_graph_nodes_and_edges (g : Graph) (entities rels : List Json) : Graph :=
  match entities.mapM entityOfJson, rels.mapM relOfJson with
  | some ns, some rs => (ns.foldl insertNode g |> fun g1 => rs.foldl mergeEdge g1)
  | _, _ => g

/-- Values under `"entities"`/`"relationships"` as a list:
`facts.get(k, [])` gives `[]` for a missing key, and any non-list value
makes the transaction's iteration raise (rollback, modelled `none`). -/
def jsonGetArr (facts : Json) (k : String) : Option (List Json) :=
  match facts with
  | Json.obj fields =>
    match jlookup fields k with
    | none => some []
    | some (Json.arr xs) => some xs
    | some _ => none
  | _ => none

def add_entities_and_relationships (driverReady : Bool) (g : Graph) (facts : Json) : Graph :=
  match jsonGetArr facts "entities", jsonGetArr facts "relationships" with
  | some es, some rs =>
    if es.isEmpty && rs.isEmpty then g
    else if driverReady then create_graph_nodes_and_edges g es rs
    else g
  | _, _ => g

/-! ## Pinecone vector store (`pinecone_service.py`)

The index is a map from vector id to `(vector, {"summary": …})`,
modelled as a unique-keyed association list; `upsert` overwrites the entry
with the same id.  `create_embedding` (`embedding_service.py`) either
returns a vector or raises, which the callers catch — oracle
`embed : String → Option (List Int)` with `none` for the raising path. -/

abbrev VecStore := List (String × List Int × String)

def vupsert (m : VecStore) (k : String) (v : List Int) (s : String) : VecStore :=
  match m with
  | [] => [(k, v, s)]
  | (k', e) :: rest => if k' = k then (k, v, s) :: rest else (k', e) :: vupsert rest k v s

/-- Model of `upsert_session_summary` (lines 83-94): skip when the index is
unavailable, when the embedding call raised (caught by the `except`), or
when the embedding is empty (`if embedding:`). -/
def upsert_session_summary (indexReady : Bool) (embed : String → Option (List Int))
    (store : VecStore) (sid summary : String) : VecStore :=
  if indexReady then
    match embed summary with
    | some v => if v.isEmpty then store else vupsert store sid v summary
    | none => store
  else store

/-- One Pinecone query match: `score` may be absent (`best.get("score", 0)`)
and `summary` is `none` when `best["metadata"]["summary"]` would raise a
`KeyError` (caught, yielding `None`). -/
structure QMatch where
  score : Option ℚ
  summary : Option String

/-- Model of `query_relevant_summary` (lines 99-119): `queryIndex` is the
index's `query` collaborator returning the ranked matches for a vector. -/
def query_relevant_summary (indexReady : Bool) (embed : String → Option (List Int))
    (queryIndex : List Int → List QMatch) (text : String) : Option String :=
  if indexReady then
    match embed text with
    | none => none
    | some v =>
      if v.isEmpty then none
      else
        match queryIndex v with
        | [] => none
        | best :: _ => if best.score.getD 0 > (3 : ℚ) / 4 then best.summary else none
  else none

/-! ## Sessions and the consolidation pipeline (`celery_worker.py`)

A session document carries the fields the worker reads; `isArchived`
models Mongo's `{"isArchived": {"$ne": True}}` semantics (an absent field
behaves like `false`).  `find_one`/`update_one` act on the first document
with the matching id. -/

structure StoredMsg where
  sender : String
  text : String
deriving DecidableEq

structure Session where
  id : String
  userId : String
  messages : List StoredMsg
  lastUpdatedAt : Int
  isArchived : Bool
deriving DecidableEq

def find_one (sessions : List Session) (sid : String) : Option Session :=
  sessions.find? (fun s => s.id = sid)

def setArchived (sessions : List Session) (sid : String) : List Session :=
  match sessions with
  | [] => []
  | s :: rest =>
    if s.id = sid then { s with isArchived := true } :: rest
    else s :: setArchived rest sid

/-- Transcript built at line 124:
`" ".join([msg.get("text", "") for msg in session.get("messages", [])]).strip()`. -/
def fullTranscript (msgs : List StoredMsg) : String :=
  pyStrip (String.intercalate " " (msgs.map (fun m => m.text)))

structure World where
  sessions : List Session
  graph : Graph
  vec : VecStore
deriving DecidableEq

/-- External collaborators of one `summarize_and_archive_task` run.
`summarize` and `extract` are the `ai_service` calls viewed at the task
boundary (deterministic functions of the transcript; `Except.error` /
`none` are the failure outcomes the task's `try`/`except` blocks absorb);
`archiveOk` is whether the final `update_one` write succeeds. -/
structure PipelineEnv where
  summarize : String → Except Unit String
  extract : String → Option Json
  embed : String → Option (List Int)
  vecReady : Bool
  graphReady : Bool
  archiveOk : Bool

/-- Summary text produced by step 1 of the task: the summarizer's output,
with an empty result replaced by `"Summary unavailable."` and a raised
exception by `"Failed to generate summary."`. -/
def pipelineSummary (env : PipelineEnv) (transcript : String) : String :=
  match env.summarize transcript with
  | Except.ok t => if t = "" then "Summary unavailable." else t
  | Except.error _ => "Failed to generate summary."

/-- Graph after step 2 of the task: extract facts, post-process, and merge
into Neo4j; every failure leaves the graph unchanged. -/
def pipelineGraph (env : PipelineEnv) (g : Graph) (uid transcript : String) : Graph :=
  match consolidationFactsToStore (env.extract transcript) uid with
  | some f => add_entities_and_relationships env.graphReady g f
  | none => g

/-- Model of `summarize_and_archive_task` (`celery_worker.py`,
lines 105-163).  A missing session aborts with no effect.  An empty
transcript short-circuits to the sentinel summary, skipping both the
summarization and the facts branch.  Otherwise: summarize (empty result
and exceptions become sentinel strings), extract-and-merge facts into
Neo4j, upsert the summary into Pinecone, and finally set `isArchived`. -/
def summarize_and_archive_task (env : PipelineEnv) (w : World) (sid : String) : World :=
  match find_one w.sessions sid with
  | none => w
  | some s =>
    let transcript := fullTranscript s.messages
    if transcript = "" then
      { sessions := if env.archiveOk then setArchived w.sessions sid else w.sessions,
        graph := w.graph,
        vec := upsert_session_summary env.vecReady env.embed w.vec sid
          "No content to summarize." }
    else
      { sessions := if env.archiveOk then setArchived w.sessions sid else w.sessions,
        graph := pipelineGraph env w.graph s.userId transcript,
        vec := upsert_session_summary env.vecReady env.embed w.vec sid
          (pipelineSummary env transcript) }

/-- Model of `extract_and_store_facts_task` (lines 169-197), with the
extractor viewed at the task boundary like in `PipelineEnv`. -/
def extract_and_store_facts_task (extract : String → Option Json) (graphReady : Bool)
    (g : Graph) (userMessage assistantMessage uid : String) : Graph :=
  let transcript := "Human: " ++ userMessage ++ "\nAssistant: " ++ assistantMessage
  match realtimeFactsToStore (extract transcript) uid with
  | some f => add_entities_and_relationships graphReady g f
  | none => g

/-- Model of `check_inactive_sessions` (lines 76-99): Mongo query
`{"lastUpdatedAt": {"$lt": now - 30 minutes}, "isArchived": {"$ne": True}}`,
then one `summarize_and_archive_task.delay(session_id)` per match.
The returned list is the enqueued job keys in order. -/
def check_inactive_sessions (sessions : List Session) (now : Int) : List String :=
  (sessions.filter (fun s => decide (s.lastUpdatedAt < now - 1800) && !s.isArchived)).map
    (fun s => s.id)

/-! ## Helper lemmas -/

theorem getFail_removeFail (m : FailMap) (k : String) : getFail (removeFail m k) k = none := by
  induction m with
  | nil => rfl
  | cons e rest ih =>
    by_cases h : e.1 = k
    · simpa [removeFail, h] using ih
    · simpa [removeFail, getFail, h] using ih

/-! ## C8: circuit-breaker availability -/

/-- C8 (counterexample): the claim's iff fails at a recorded failure
timestamp of `0`.  `_is_provider_available` tests `if failure_time and …`,
and a stored `0` is falsy in Python, so a provider whose failure was
recorded at time `0` is reported available even though
`now - lastFailureTime < cooldownDuration`. -/
theorem c8_counterexample :
    isProviderAvailable [("gemini", 0)] 300 100 "gemini" = true
    ∧ getFail [("gemini", 0)] "gemini" = some 0
    ∧ (100 : Int) - 0 < 300 := by
  refine ⟨rfl, rfl, by decide⟩

/-- C8 (amended): `_is_provider_available` returns false iff a failure was
recorded for the provider with a nonzero timestamp and
`now - lastFailureTime < cooldownDuration`; in particular it returns true
for any provider with no recorded failure.  The nonzero-timestamp proviso
is the Python truthiness test on the stored `time.time()` value. -/
theorem c8_available_iff (failed : FailMap) (timeout now : Int) (name : String) :
    isProviderAvailable failed timeout now name = false ↔
      ∃ t, getFail failed name = some t ∧ t ≠ 0 ∧ now - t < timeout := by
  unfold isProviderAvailable
  cases h : getFail failed name with
  | none => simp
  | some t =>
    by_cases hc : t ≠ 0 ∧ now - t < timeout
    · simp [hc]
    · simp only [hc, if_false, if_neg hc, Option.some.injEq]
      constructor
      · intro hfalse
        cases hfalse
      · rintro ⟨t', rfl, ht⟩
        exact absurd ht hc

/-! ## C10: semantic recall threshold -/

/-- C10: `query_relevant_summary` returns a stored summary only when the
top match's score is strictly greater than `0.75`; an unavailable index, a
failed embedding, an empty embedding, no matches, or a best score at or
below `0.75` all yield `None`. -/
theorem c10_query_threshold (indexReady : Bool) (embed : String → Option (List Int))
    (queryIndex : List Int → List QMatch) (text : String) :
    (indexReady = false → query_relevant_summary indexReady embed queryIndex text = none)
    ∧ (embed text = none → query_relevant_summary indexReady embed queryIndex text = none)
    ∧ (embed text = some [] → query_relevant_summary indexReady embed queryIndex text = none)
    ∧ (∀ v, embed text = some v → queryIndex v = [] →
        query_relevant_summary indexReady embed queryIndex text = none)
    ∧ (∀ v best rest, embed text = some v → queryIndex v = best :: rest →
        best.score.getD 0 ≤ (3 : ℚ) / 4 →
        query_relevant_summary indexReady embed queryIndex text = none)
    ∧ (∀ s, query_relevant_summary indexReady embed queryIndex text = some s →
        indexReady = true ∧ ∃ v best rest, embed text = some v ∧ v ≠ [] ∧
          queryIndex v = best :: rest ∧ best.score.getD 0 > (3 : ℚ) / 4
          ∧ best.summary = some s) := by
  refine ⟨?_, ?_, ?_, ?_, ?_, ?_⟩
  · intro h
    simp [query_relevant_summary, h]
  · intro h
    cases indexReady <;> simp [query_relevant_summary, h]
  · intro h
    cases indexReady <;> simp [query_relevant_summary, h]
  · intro v hv hq
    cases indexReady <;> simp [query_relevant_summary, hv, hq]
  · intro v best rest hv hq hle
    cases indexReady with
    | false => simp [query_relevant_summary]
    | true =>
      by_cases hvnil : v.isEmpty <;>
        simp [query_relevant_summary, hv, hq, hvnil, if_neg (not_lt.2 hle)]
  · intro s h
    cases indexReady with
    | false => simp [query_relevant_summary] at h
    | true =>
      refine ⟨rfl, ?_⟩
      unfold query_relevant_summary at h
      simp only [if_true] at h
      cases hv : embed text with
      | none => rw [hv] at h; cases h
      | some v =>
        rw [hv] at h
        by_cases hvnil : v.isEmpty
        · simp [hvnil] at h
        · simp only [hvnil, if_false, Bool.false_eq_true] at h
          cases hq : queryIndex v with
          | nil => rw [hq] at h; cases h
          | cons best rest =>
            rw [hq] at h
            change (if best.score.getD 0 > (3 : ℚ) / 4 then best.summary else none)
              = some s at h
            by_cases hsc : best.score.getD 0 > (3 : ℚ) / 4
            · rw [if_pos hsc] at h
              exact ⟨v, best, rest, rfl, by simpa using hvnil, hq, hsc, h⟩
            · rw [if_neg hsc] at h
              cases h

def c10embed : String → Option (List Int) := fun _ => some [1]

def c10queryIndex : List Int → List QMatch := fun _ => [⟨some (1 / 2), some "recalled"⟩]

/-- C10 (witness): a concrete query whose best score is `0.5 ≤ 0.75`
returns `None`. -/
theorem c10_witness : query_relevant_summary true c10embed c10queryIndex "query" = none :=
  (c10_query_threshold true c10embed c10queryIndex "query").2.2.2.2.1 [1]
    ⟨some (1 / 2), some "recalled"⟩ [] rfl rfl (by norm_num)

/-! ## C9: inactivity scan selection -/

theorem count_id_zero_of_not_mem (l : List Session) (p : Session → Bool) (x : String)
    (hx : x ∉ l.map (fun s => s.id)) :
    ((l.filter p).map (fun s => s.id)).count x = 0 := by
  rw [List.count_eq_zero]
  intro hmem
  rcases List.mem_map.1 hmem with ⟨s, hs, rfl⟩
  exact hx (List.mem_map.2 ⟨s, List.mem_of_mem_filter hs, rfl⟩)

/-- C9: on each scan, exactly the sessions with `lastUpdatedAt` strictly
older than the 30-minute cutoff and `isArchived ≠ true` are selected, and
each selected session's id is enqueued exactly once (session ids are
pairwise distinct, as Mongo `_id`s are). -/
theorem c9_scan_selects_exactly_inactive (sessions : List Session) (now : Int)
    (hids : (sessions.map (fun s => s.id)).Nodup) :
    ∀ s ∈ sessions,
      ((s.lastUpdatedAt < now - 1800 ∧ s.isArchived = false) →
        (check_inactive_sessions sessions now).count s.id = 1)
      ∧ ((¬ s.lastUpdatedAt < now - 1800 ∨ s.isArchived = true) →
        (check_inactive_sessions sessions now).count s.id = 0) := by
  induction sessions with
  | nil => intro s hs; cases hs
  | cons hd t ih =>
    rw [List.map_cons, List.nodup_cons] at hids
    intro s hs
    rcases List.mem_cons.1 hs with rfl | hmem
    · constructor
      · rintro ⟨h1, h2⟩
        unfold check_inactive_sessions
        rw [List.filter_cons, if_pos (by simp [h1, h2])]
        rw [List.map_cons, List.count_cons_self]
        have hzero := count_id_zero_of_not_mem t
          (fun s => decide (s.lastUpdatedAt < now - 1800) && !s.isArchived) s.id hids.1
        omega
      · intro hneg
        unfold check_inactive_sessions
        rw [List.filter_cons, if_neg (by rcases hneg with h | h <;> simp [h])]
        exact count_id_zero_of_not_mem t _ s.id hids.1
    · have hne : hd.id ≠ s.id := by
        intro he
        exact hids.1 (he ▸ List.mem_map.2 ⟨s, hmem, rfl⟩)
      have hrec := ih hids.2 s hmem
      unfold check_inactive_sessions at hrec ⊢
      rw [List.filter_cons]
      by_cases hp : (decide (hd.lastUpdatedAt < now - 1800) && !hd.isArchived) = true
      · rw [if_pos hp, List.map_cons, List.count_cons_of_ne (fun he => hne he.symm)]
        exact hrec
      · rw [if_neg hp]
        exact hrec

def c9session : Session := ⟨"s1", "u1", [], 0, false⟩

/-- C9 (witness): a session idle 45 minutes against the 30-minute
threshold is selected and enqueued exactly once. -/
theorem c9_witness : (check_inactive_sessions [c9session] 2700).count "s1" = 1 :=
  (c9_scan_selects_exactly_inactive [c9session] 2700 (by simp) c9session (by simp)).1
    ⟨by decide, rfl⟩

/-! ## C1: behaviour of the gateway when every provider fails -/

theorem getResponseLoop_allfail (attempt : String → String → Option String)
    (timeout now : Int) (fullPrompt : String)
    (h : ∀ p pr, attempt p pr = none) :
    ∀ ps failed, (getResponseLoop attempt timeout now fullPrompt ps failed).1
      = chatFallback := by
  intro ps
  induction ps with
  | nil => intro failed; rfl
  | cons p rest ih =>
    intro failed
    unfold getResponseLoop
    by_cases ha : isProviderAvailable failed timeout now p
    · cases hk : knownProvider p
      · simp [ha, hk, ih]
      · simp [ha, hk, h, ih]
    · simp [ha, ih]

theorem summarizeLoop_allfail (attempt : String → String → Option String)
    (timeout now : Int) (fullPrompt : String)
    (h : ∀ p pr, attempt p pr = none) :
    ∀ ps failed, (summarizeLoop attempt timeout now fullPrompt ps failed).1
      = summaryFallback := by
  intro ps
  induction ps with
  | nil => intro failed; rfl
  | cons p rest ih =>
    intro failed
    unfold summarizeLoop
    by_cases ha : isProviderAvailable failed timeout now p
    · cases hk : knownProvider p
      · simp [ha, hk, ih]
      · simp [ha, hk, h, ih]
    · simp [ha, ih]

/-- C1 (amended): when every provider/credential attempt fails, the gateway
does not raise an aggregate `AllProvidersUnavailable`: `get_response`
returns the fixed user-safe chat fallback string, `summarize_text` returns
its own fallback string — to every caller alike, including the
consolidation pipeline — and `extract_facts_from_text` receives the
ordinary fallback string, fails to parse it as JSON, and yields `None`. -/
theorem c1_all_fail_returns_fallback_strings (attempt : String → String → Option String)
    (timeout now : Int) (failed : FailMap) (prompt text extractInput : String)
    (history : List ChatMsg) (context : Option String) (state : String)
    (h : ∀ p pr, attempt p pr = none) :
    (get_response attempt timeout now prompt history context state failed).1 = chatFallback
    ∧ (summarize_text attempt timeout now text failed).1 = summaryFallback
    ∧ (extract_facts_from_text attempt timeout now failed extractInput).1 = none := by
  refine ⟨getResponseLoop_allfail attempt timeout now _ h AI_PROVIDERS failed,
    summarizeLoop_allfail attempt timeout now _ h AI_PROVIDERS failed, ?_⟩
  have hg : (get_response attempt timeout now (extraction_prompt extractInput) [] none
      "general_conversation" failed).1 = chatFallback :=
    getResponseLoop_allfail attempt timeout now _ h AI_PROVIDERS failed
  simp only [extract_facts_from_text, hg]
  rfl

/-- C1 (witness). -/
theorem c1_all_fail_witness :
    (get_response (fun _ _ => none) 300 0 "hi" [] none "general_conversation" []).1
      = chatFallback
    ∧ (summarize_text (fun _ _ => none) 300 0 "hi" []).1 = summaryFallback
    ∧ (extract_facts_from_text (fun _ _ => none) 300 0 [] "hi").1 = none :=
  c1_all_fail_returns_fallback_strings (fun _ _ => none) 300 0 [] "hi" "hi" "hi" [] none
    "general_conversation" (fun _ _ => rfl)

def c1env : PipelineEnv :=
  { summarize := fun t => Except.ok (summarize_text (fun _ _ => none) 300 0 t []).1,
    extract := fun t => (extract_facts_from_text (fun _ _ => none) 300 0 [] t).1,
    embed := fun _ => some [1],
    vecReady := true, graphReady := true, archiveOk := true }

def c1world : World :=
  { sessions := [⟨"s1", "u1", [⟨"user", "hello"⟩], 0, false⟩],
    graph := ⟨[], []⟩, vec := [] }

/-- C1 (counterexample): with every provider attempt failing, the
consolidation pipeline receives the gateway's ordinary fallback string as
a success value and stores it in the vector store as the session summary —
no `AllProvidersUnavailable` failure ever reaches the
ConsolidationPipeline/FactExtractor callers. -/
theorem c1_counterexample :
    (summarize_and_archive_task c1env c1world "s1").vec
      = [("s1", [1], "❌ Failed to generate summary. All AI services unavailable.")] := by
  rfl

/-! ## C2: fact extraction on failure -/

def emptyFactGraphJson : Json :=
  Json.obj [("entities", Json.arr []), ("relationships", Json.arr [])]

/-- C2 (counterexample): on model output that is prose with no JSON,
`extract_facts_from_text` returns `None` — not the empty FactGraph the
claim promises. -/
theorem c2_counterexample :
    (extract_facts_from_text
        (fun _ _ => some "Sorry, I could not find any facts in this transcript.")
        300 0 [] "hi").1 = none
    ∧ (none : Option Json) ≠ some emptyFactGraphJson := by
  exact ⟨rfl, by simp⟩

theorem getResponseLoop_const (r : String) (attempt : String → String → Option String)
    (timeout now : Int) (fullPrompt : String)
    (h : ∀ p pr, attempt p pr = some r) :
    ∀ ps failed, (getResponseLoop attempt timeout now fullPrompt ps failed).1 = r
      ∨ (getResponseLoop attempt timeout now fullPrompt ps failed).1 = chatFallback := by
  intro ps
  induction ps with
  | nil => intro failed; exact Or.inr rfl
  | cons p rest ih =>
    intro failed
    unfold getResponseLoop
    by_cases ha : isProviderAvailable failed timeout now p
    · cases hk : knownProvider p
      · simpa [ha, hk] using ih _
      · simp [ha, hk, h]
    · simpa [ha] using ih _

/-- C2 (amended): `extract_facts_from_text` never throws (every exception
path of the source is an explicit `none` in this total model), and on any
failure it returns `None`, not an empty FactGraph: when every provider
fails it receives the non-JSON chat fallback string and yields `None`, and
when the model wraps its JSON in prose the `json.loads` call fails and it
yields `None`, for every breaker state, transcript and clock. -/
theorem c2_extract_failure_yields_none (attempt : String → String → Option String)
    (timeout now : Int) (failed : FailMap) (text : String) :
    ((∀ p pr, attempt p pr = none) →
      (extract_facts_from_text attempt timeout now failed text).1 = none)
    ∧ (∀ (failed' : FailMap) (timeout' now' : Int) (text' : String),
      (extract_facts_from_text
        (fun _ _ => some
          "Here is your JSON: \x7b\"entities\": [], \"relationships\": []\x7d, hope it helps!")
        timeout' now' failed' text').1 = none) := by
  constructor
  · intro h
    have hg : (get_response attempt timeout now (extraction_prompt text) [] none
        "general_conversation" failed).1 = chatFallback :=
      getResponseLoop_allfail attempt timeout now _ h AI_PROVIDERS failed
    simp only [extract_facts_from_text, hg]
    rfl
  · intro failed' timeout' now' text'
    have hg := getResponseLoop_const
      "Here is your JSON: \x7b\"entities\": [], \"relationships\": []\x7d, hope it helps!"
      (fun _ _ => some
        "Here is your JSON: \x7b\"entities\": [], \"relationships\": []\x7d, hope it helps!")
      timeout' now'
      (construct_prompt (extraction_prompt text') [] none "general_conversation")
      (fun _ _ => rfl) AI_PROVIDERS failed'
    rcases hg with hg | hg <;>
      · simp only [extract_facts_from_text, get_response] at hg ⊢
        rw [hg]
        rfl

/-- C2 (witness). -/
theorem c2_extract_witness :
    (extract_facts_from_text (fun _ _ => none) 300 0 [] "hi").1 = none :=
  (c2_extract_failure_yields_none (fun _ _ => none) 300 0 [] "hi").1 (fun _ _ => rfl)

/-! ## C4: success handling in the two gateway loops -/

/-- C4 (amended): on the first success of an available provider,
`get_response` removes the provider's failure record (so it is available
at every later time) and returns at once, attempting nobody else;
`summarize_text`'s loop also returns the first success at once and
attempts nobody else, but — unlike the claim — leaves the failure record
in place (the source has no `pop` on this path).  The stale record is
sequentially harmless: a success requires the provider to have been
available, and availability at `now` persists to every `now' ≥ now`. -/
theorem c4_first_success (attempt : String → String → Option String)
    (timeout now : Int) (p : String) (rest : List String) (failed : FailMap)
    (fullPrompt r : String)
    (hk : knownProvider p = true)
    (ha : isProviderAvailable failed timeout now p = true)
    (hs : attempt p fullPrompt = some r) :
    getResponseLoop attempt timeout now fullPrompt (p :: rest) failed
      = (r, removeFail failed p, [p])
    ∧ summarizeLoop attempt timeout now fullPrompt (p :: rest) failed = (r, failed, [p])
    ∧ getFail (removeFail failed p) p = none
    ∧ (∀ now', isProviderAvailable (removeFail failed p) timeout now' p = true)
    ∧ (∀ now', now ≤ now' → isProviderAvailable failed timeout now' p = true) := by
  refine ⟨?_, ?_, getFail_removeFail failed p, ?_, ?_⟩
  · unfold getResponseLoop
    simp [ha, hk, hs]
  · unfold summarizeLoop
    simp [ha, hk, hs]
  · intro now'
    unfold isProviderAvailable
    rw [getFail_removeFail]
  · intro now' hle
    unfold isProviderAvailable at ha ⊢
    cases hg : getFail failed p with
    | none => rfl
    | some t =>
      rw [hg] at ha
      change (if t ≠ 0 ∧ now - t < timeout then false else true) = true at ha
      change (if t ≠ 0 ∧ now' - t < timeout then false else true) = true
      by_cases h0 : t = 0
      · simp [h0]
      · have hnot : ¬ now - t < timeout := by
          by_contra hlt
          rw [if_pos ⟨h0, hlt⟩] at ha
          cases ha
        have hnot' : ¬ (t ≠ 0 ∧ now' - t < timeout) := by
          rintro ⟨-, hlt'⟩
          exact hnot (by omega)
        rw [if_neg hnot']

def c4attempt : String → String → Option String :=
  fun p _ => if p = "gemini" then some "fine answer" else none

/-- C4 (counterexample): after `fail(gemini)` at time 1, a success of
gemini at time 400 (cooldown 300 long expired) leaves the failure record
in place on the `summarize_text` path, while the `get_response` path
clears it — contradicting the claim that both framings record the
success. -/
theorem c4_counterexample :
    (summarize_text c4attempt 300 400 "hi" [("gemini", 1)]).2.1 = [("gemini", 1)]
    ∧ (get_response c4attempt 300 400 "hi" [] none "general_conversation"
        [("gemini", 1)]).2.1 = [] := by
  exact ⟨rfl, rfl⟩

/-- C4 (witness). -/
theorem c4_first_success_witness :
    getResponseLoop c4attempt 300 400 "x" ("gemini" :: ["anthropic", "cohere"])
      [("gemini", 1)] = ("fine answer", removeFail [("gemini", 1)] "gemini", ["gemini"])
    ∧ summarizeLoop c4attempt 300 400 "x" ("gemini" :: ["anthropic", "cohere"])
      [("gemini", 1)] = ("fine answer", [("gemini", 1)], ["gemini"])
    ∧ getFail (removeFail [("gemini", 1)] "gemini") "gemini" = none
    ∧ (∀ now', isProviderAvailable (removeFail [("gemini", 1)] "gemini") 300 now' "gemini"
        = true)
    ∧ (∀ now', (400 : Int) ≤ now' →
        isProviderAvailable [("gemini", 1)] 300 now' "gemini" = true) :=
  c4_first_success c4attempt 300 400 "gemini" ["anthropic", "cohere"] [("gemini", 1)]
    "x" "fine answer" rfl rfl rfl

/-! ## C6: Gemini credential rotation -/

theorem rotateKeys_spec (outcome : Nat → Option String) (n : Nat) (hn : 0 < n) :
    ∀ (fuel idx : Nat), idx < n →
      (∃ j, j < fuel ∧ (∀ i, i < j → outcome ((idx + i) % n) = none) ∧
        ∃ s, outcome ((idx + j) % n) = some s ∧
          rotateKeys outcome n idx fuel = (some s, (idx + j) % n))
      ∨ ((∀ i, i < fuel → outcome ((idx + i) % n) = none) ∧
        rotateKeys outcome n idx fuel = (none, (idx + fuel) % n)) := by
  intro fuel
  induction fuel with
  | zero =>
    intro idx hidx
    right
    exact ⟨fun i hi => absurd hi (Nat.not_lt_zero i), by
      simp [rotateKeys, Nat.mod_eq_of_lt hidx]⟩
  | succ fuel ih =>
    intro idx hidx
    cases ho : outcome idx with
    | some s =>
      left
      refine ⟨0, Nat.succ_pos fuel, fun i hi => absurd hi (Nat.not_lt_zero i), s, ?_, ?_⟩
      · simpa [Nat.mod_eq_of_lt hidx] using ho
      · simp [rotateKeys, ho, Nat.mod_eq_of_lt hidx]
    | none =>
      have hidx' : (idx + 1) % n < n := Nat.mod_lt _ hn
      have hshift : ∀ i, ((idx + 1) % n + i) % n = (idx + (i + 1)) % n := by
        intro i
        rw [Nat.mod_add_mod]
        congr 1
        omega
      rcases ih ((idx + 1) % n) hidx' with ⟨j, hj, hnone, s, hs, heq⟩ | ⟨hall, heq⟩
      · left
        refine ⟨j + 1, Nat.succ_lt_succ hj, ?_, s, ?_, ?_⟩
        · intro i hi
          cases i with
          | zero => simpa [Nat.mod_eq_of_lt hidx] using ho
          | succ i' =>
            rw [← hshift i']
            exact hnone i' (Nat.lt_of_succ_lt_succ hi)
        · rw [← hshift j]
          exact hs
        · simp [rotateKeys, ho, heq, hshift j]
      · right
        constructor
        · intro i hi
          cases i with
          | zero => simpa [Nat.mod_eq_of_lt hidx] using ho
          | succ i' =>
            rw [← hshift i']
            exact hall i' (Nat.lt_of_succ_lt_succ hi)
        · simp [rotateKeys, ho, heq, hshift fuel]

/-- C6: one `_try_gemini` call with `n` configured keys, starting from the
persisted index `start`, attempts the keys in round-robin order
`start, start+1 % n, …`; it stops at the first key whose attempt succeeds
(after at most `j < n` failures, returning that key's text and persisting
that key as the new index), and it raises — the only way the provider is
marked failed by `get_response` — exactly when all `n` credentials have
failed in this one call, in which case the persisted index has wrapped
back to `start`.  In particular per-credential retry is bounded by `n`. -/
theorem c6_key_rotation (outcome : Nat → Option String) (n start : Nat)
    (hstart : start < n) :
    ((∃ j, j < n ∧ (∀ i, i < j → outcome ((start + i) % n) = none) ∧
      ∃ s, outcome ((start + j) % n) = some s ∧
        try_gemini outcome n start = (some s, (start + j) % n))
    ∨ ((∀ i, i < n → outcome ((start + i) % n) = none) ∧
      try_gemini outcome n start = (none, start)))
    ∧ ((try_gemini outcome n start).1 = none →
      ∀ i, i < n → outcome ((start + i) % n) = none) := by
  have hn : 0 < n := Nat.lt_of_le_of_lt (Nat.zero_le start) hstart
  have hspec := rotateKeys_spec outcome n hn n start hstart
  have hng : try_gemini outcome n start = rotateKeys outcome n start n := by
    unfold try_gemini
    rw [if_neg (by omega)]
  rcases hspec with ⟨j, hj, hnone, s, hs, heq⟩ | ⟨hall, heq⟩
  · constructor
    · exact Or.inl ⟨j, hj, hnone, s, hs, by rw [hng]; exact heq⟩
    · intro hfail
      rw [hng, heq] at hfail
      cases hfail
  · have heqg : try_gemini outcome n start = (none, start) := by
      rw [hng, heq, Nat.add_mod_right, Nat.mod_eq_of_lt hstart]
    exact ⟨Or.inr ⟨hall, heqg⟩, fun _ => hall⟩

def c6outcome : Nat → Option String := fun i => if i = 0 then some "generated" else none

/-- C6 (witness): three keys, persisted start index 1, keys 1 and 2 fail
and key 0 succeeds on wraparound. -/
theorem c6_key_rotation_witness :
    ((∃ j, j < 3 ∧ (∀ i, i < j → c6outcome ((1 + i) % 3) = none) ∧
      ∃ s, c6outcome ((1 + j) % 3) = some s ∧
        try_gemini c6outcome 3 1 = (some s, (1 + j) % 3))
    ∨ ((∀ i, i < 3 → c6outcome ((1 + i) % 3) = none) ∧
      try_gemini c6outcome 3 1 = (none, 1)))
    ∧ ((try_gemini c6outcome 3 1).1 = none →
      ∀ i, i < 3 → c6outcome ((1 + i) % 3) = none) :=
  c6_key_rotation c6outcome 3 1 (by decide)

/-! ## C7: pipeline step isolation -/

theorem find_one_setArchived (sessions : List Session) (sid : String) :
    find_one (setArchived sessions sid) sid
      = (find_one sessions sid).map (fun s => { s with isArchived := true }) := by
  induction sessions with
  | nil => rfl
  | cons s rest ih =>
    by_cases h : s.id = sid
    · simp [setArchived, find_one, h]
    · simp only [setArchived, if_neg h, find_one, List.find?]
      rw [show (decide (s.id = sid)) = false by simp [h]]
      exact ih

/-- C7: a missing session aborts the run with no store touched; whenever
the session is found, the archive-flag step is attempted regardless of the
outcomes of the summarization, fact-extraction, graph and vector steps —
if the archive write succeeds the session ends archived — and a session
with an empty transcript still reaches `isArchived = true` with the graph
untouched. -/
theorem c7_step_isolation (env : PipelineEnv) (w : World) (sid : String) :
    (find_one w.sessions sid = none → summarize_and_archive_task env w sid = w)
    ∧ (∀ s, find_one w.sessions sid = some s → env.archiveOk = true →
        find_one (summarize_and_archive_task env w sid).sessions sid
          = some { s with isArchived := true })
    ∧ (∀ s, find_one w.sessions sid = some s → fullTranscript s.messages = "" →
        (summarize_and_archive_task env w sid).graph = w.graph
        ∧ (env.archiveOk = true →
          find_one (summarize_and_archive_task env w sid).sessions sid
            = some { s with isArchived := true })) := by
  refine ⟨?_, ?_, ?_⟩
  · intro h
    unfold summarize_and_archive_task
    rw [h]
  · intro s hfind harch
    have hsess : (summarize_and_archive_task env w sid).sessions
        = setArchived w.sessions sid := by
      unfold summarize_and_archive_task
      rw [hfind]
      by_cases ht : fullTranscript s.messages = "" <;> simp [ht, harch]
    rw [hsess, find_one_setArchived, hfind]
    rfl
  · intro s hfind htrans
    constructor
    · unfold summarize_and_archive_task
      rw [hfind]
      simp [htrans]
    · intro harch
      have hsess : (summarize_and_archive_task env w sid).sessions
          = setArchived w.sessions sid := by
        unfold summarize_and_archive_task
        rw [hfind]
        simp [htrans, harch]
      rw [hsess, find_one_setArchived, hfind]
      rfl

def c7env : PipelineEnv :=
  { summarize := fun _ => Except.error (),
    extract := fun _ => none,
    embed := fun _ => none,
    vecReady := false, graphReady := false, archiveOk := true }

def c7world : World :=
  { sessions := [⟨"s1", "u1", [], 5, false⟩], graph := ⟨[], []⟩, vec := [] }

/-- C7 (witness): with the summarizer failing, the extractor failing and
both stores down, a found session with an empty transcript still ends
with `isArchived = true` and an untouched graph, while a missing session
id leaves the world unchanged. -/
theorem c7_step_isolation_witness :
    (summarize_and_archive_task c7env c7world "nope") = c7world
    ∧ (summarize_and_archive_task c7env c7world "s1").graph = c7world.graph
    ∧ find_one (summarize_and_archive_task c7env c7world "s1").sessions "s1"
        = some { id := "s1", userId := "u1", messages := [], lastUpdatedAt := 5,
                 isArchived := true } :=
  ⟨(c7_step_isolation c7env c7world "nope").1 rfl,
    ((c7_step_isolation c7env c7world "s1").2.2 ⟨"s1", "u1", [], 5, false⟩ rfl rfl).1,
    ((c7_step_isolation c7env c7world "s1").2.2 ⟨"s1", "u1", [], 5, false⟩ rfl rfl).2 rfl⟩

/-! ## C3: user-entity injection and IS_NAMED synthesis -/

theorem jlookup_jset_of_isSome (fields : List (String × Json)) (k : String) (v : Json)
    (h : (jlookup fields k).isSome) : jlookup (jset fields k v) k = some v := by
  induction fields with
  | nil => simp [jlookup] at h
  | cons f rest ih =>
    by_cases hk : f.1 = k
    · simp [jset, jlookup, hk]
    · rw [jlookup, if_neg hk] at h
      simp only [jset]
      rw [if_neg hk, jlookup, if_neg hk]
      exact ih h

theorem jlookup_jset_ne (fields : List (String × Json)) (k k' : String) (v : Json)
    (h : k' ≠ k) : jlookup (jset fields k v) k' = jlookup fields k' := by
  induction fields with
  | nil => rfl
  | cons f rest ih =>
    by_cases hk : f.1 = k
    · simp only [jset, if_pos hk, jlookup]
      rw [if_neg (fun he => h he.symm), if_neg (by rw [hk]; exact fun he => h he.symm)]
    · simp only [jset, if_neg hk, jlookup]
      by_cases hk' : f.1 = k'
      · rw [if_pos hk', if_pos hk']
      · rw [if_neg hk', if_neg hk']
        exact ih

theorem jlookup_append_ne (fields : List (String × Json)) (k k' : String) (v : Json)
    (h : k' ≠ k) : jlookup (fields ++ [(k, v)]) k' = jlookup fields k' := by
  have hne : ¬ k = k' := fun he => h he.symm
  induction fields with
  | nil => simp only [List.nil_append, jlookup, if_neg hne]
  | cons f rest ih =>
    by_cases hk' : f.1 = k'
    · simp [jlookup, hk']
    · simp only [List.cons_append, jlookup, if_neg hk']
      exact ih

theorem jlookup_append_self (fields : List (String × Json)) (k : String) (v : Json)
    (h : jlookup fields k = none) : jlookup (fields ++ [(k, v)]) k = some v := by
  induction fields with
  | nil => simp [jlookup]
  | cons f rest ih =>
    by_cases hk : f.1 = k
    · rw [jlookup, if_pos hk] at h
      cases h
    · rw [jlookup, if_neg hk] at h
      simp only [List.cons_append, jlookup, if_neg hk]
      exact ih h

theorem any_key_of_jlookup (fields : List (String × Json)) (k : String) (v : Json)
    (h : jlookup fields k = some v) : (fields.any (fun f => f.1 = k)) = true := by
  induction fields with
  | nil => cases h
  | cons f rest ih =>
    by_cases hk : f.1 = k
    · simp [List.any, hk]
    · rw [jlookup, if_neg hk] at h
      simp [List.any, hk, ih h]

theorem findPersonEntity_append_found (es l : List Json) (pf : List (String × Json))
    (h : findPersonEntity es = some (some pf)) :
    findPersonEntity (es ++ l) = some (some pf) := by
  induction es with
  | nil => cases h
  | cons e rest ih =>
    cases e with
    | obj fields =>
      simp only [List.cons_append, findPersonEntity] at h ⊢
      by_cases hp : isPersonLabel (jlookup fields "label") = true
      · rw [if_pos hp] at h ⊢
        exact h
      · rw [if_neg hp] at h ⊢
        exact ih h
    | null => cases h
    | bool b => cases h
    | num n => cases h
    | str s => cases h
    | arr xs => cases h

theorem findPersonEntity_append_none (es l : List Json)
    (h : findPersonEntity es = some none) :
    findPersonEntity (es ++ l) = findPersonEntity l := by
  induction es with
  | nil => rfl
  | cons e rest ih =>
    cases e with
    | obj fields =>
      simp only [findPersonEntity] at h
      simp only [List.cons_append, findPersonEntity]
      by_cases hp : isPersonLabel (jlookup fields "label") = true
      · rw [if_pos hp] at h
        cases h
      · rw [if_neg hp] at h ⊢
        exact ih h
    | null => cases h
    | bool b => cases h
    | num n => cases h
    | str s => cases h
    | arr xs => cases h

/-- C3 (amended): the post-processing differs between the two paths.  On
the real-time path (`extract_and_store_facts_task`), a parsed nonempty dict
with an `entities` key gets the user entity appended and, when a `PERSON`
entity is found, an `IS_NAMED` relationship from `User_<uid>` to that
person is appended; without a `PERSON` entity only the user entity is
appended.  On the consolidation path (`summarize_and_archive_task`), only
the user entity is injected — the stored dict's `relationships` value is
always exactly the extractor's, so no `IS_NAMED` link is ever synthesized
there. -/
theorem c3_postprocessing (uid : String) :
    (∀ (fields : List (String × Json)) (es : List Json) (pf : List (String × Json))
        (nameVal : Json),
      fields ≠ [] →
      jlookup fields "entities" = some (Json.arr es) →
      findPersonEntity es = some (some pf) →
      jlookup pf "name" = some nameVal →
      (jlookup fields "relationships" = none
        ∨ ∃ rs0, jlookup fields "relationships" = some (Json.arr rs0)) →
      ∃ g rs esg, realtimeFactsToStore (some (Json.obj fields)) uid = some g
        ∧ jsonGet g "relationships" = some (Json.arr rs)
        ∧ Json.obj [("source", Json.str ("User_" ++ uid)), ("target", nameVal),
            ("type", Json.str "IS_NAMED")] ∈ rs
        ∧ jsonGet g "entities" = some (Json.arr esg)
        ∧ rtUserEntity uid ∈ esg)
    ∧ (∀ (fields : List (String × Json)) (es : List Json),
      fields ≠ [] →
      jlookup fields "entities" = some (Json.arr es) →
      findPersonEntity es = some none →
      realtimeFactsToStore (some (Json.obj fields)) uid
        = some (Json.obj (jset fields "entities" (Json.arr (es ++ [rtUserEntity uid])))))
    ∧ (∀ f g, consolidationFactsToStore (some f) uid = some g →
      jsonGet g "relationships" = jsonGet f "relationships")
    ∧ (∀ fields : List (String × Json), fields ≠ [] →
      (jlookup fields "entities" = none →
        consolidationFactsToStore (some (Json.obj fields)) uid
          = some (Json.obj (fields ++ [("entities", Json.arr [consUserEntity uid])])))
      ∧ (∀ es0, jlookup fields "entities" = some (Json.arr es0) →
        consolidationFactsToStore (some (Json.obj fields)) uid
          = some (Json.obj (jset fields "entities"
              (Json.arr (es0 ++ [consUserEntity uid])))))) := by
  have hners : ("relationships" : String) ≠ "entities" := by decide
  have hnees : ("entities" : String) ≠ "relationships" := by decide
  refine ⟨?_, ?_, ?_, ?_⟩
  · intro fields es pf nameVal hne hfe hperson hname hrel
    have htruthy : jsonTruthy (Json.obj fields) = true := by
      simp [jsonTruthy, hne]
    have hany : (fields.any (fun f => f.1 = "entities")) = true :=
      any_key_of_jlookup fields "entities" _ hfe
    have hsda : setdefaultAppend (Json.obj fields) "entities" (rtUserEntity uid)
        = some (Json.obj (jset fields "entities"
            (Json.arr (es ++ [rtUserEntity uid])))) := by
      simp [setdefaultAppend, hfe]
    have hlook1 : jlookup (jset fields "entities" (Json.arr (es ++ [rtUserEntity uid])))
        "entities" = some (Json.arr (es ++ [rtUserEntity uid])) :=
      jlookup_jset_of_isSome fields "entities" _ (by rw [hfe]; rfl)
    have hfp : findPersonEntity (es ++ [rtUserEntity uid]) = some (some pf) :=
      findPersonEntity_append_found es _ pf hperson
    have hred : realtimeFactsToStore (some (Json.obj fields)) uid
        = setdefaultAppend
            (Json.obj (jset fields "entities" (Json.arr (es ++ [rtUserEntity uid]))))
            "relationships"
            (Json.obj [("source", Json.str ("User_" ++ uid)), ("target", nameVal),
              ("type", Json.str "IS_NAMED")]) := by
      simp only [realtimeFactsToStore, htruthy, if_true, jsonContains, hany,
        Bool.true_or, hsda, hlook1, hfp, hname]
    have hlookrel : jlookup (jset fields "entities"
        (Json.arr (es ++ [rtUserEntity uid]))) "relationships"
        = jlookup fields "relationships" :=
      jlookup_jset_ne fields "entities" "relationships" _ hners
    rcases hrel with hrel | ⟨rs0, hrel⟩
    · have hsda2 : setdefaultAppend
          (Json.obj (jset fields "entities" (Json.arr (es ++ [rtUserEntity uid]))))
          "relationships"
          (Json.obj [("source", Json.str ("User_" ++ uid)), ("target", nameVal),
            ("type", Json.str "IS_NAMED")])
          = some (Json.obj (jset fields "entities" (Json.arr (es ++ [rtUserEntity uid]))
              ++ [("relationships", Json.arr [Json.obj [("source",
                  Json.str ("User_" ++ uid)), ("target", nameVal),
                  ("type", Json.str "IS_NAMED")]])])) := by
        simp only [setdefaultAppend, hlookrel, hrel]
      refine ⟨_, [Json.obj [("source", Json.str ("User_" ++ uid)), ("target", nameVal),
        ("type", Json.str "IS_NAMED")]], es ++ [rtUserEntity uid],
        by rw [hred, hsda2], ?_, by simp, ?_, by simp⟩
      · show jlookup _ "relationships" = _
        rw [jlookup_append_self _ _ _ (hlookrel.trans hrel)]
      · show jlookup _ "entities" = _
        rw [jlookup_append_ne _ _ _ _ hnees, hlook1]
    · have hsda2 : setdefaultAppend
          (Json.obj (jset fields "entities" (Json.arr (es ++ [rtUserEntity uid]))))
          "relationships"
          (Json.obj [("source", Json.str ("User_" ++ uid)), ("target", nameVal),
            ("type", Json.str "IS_NAMED")])
          = some (Json.obj (jset
              (jset fields "entities" (Json.arr (es ++ [rtUserEntity uid])))
              "relationships"
              (Json.arr (rs0 ++ [Json.obj [("source", Json.str ("User_" ++ uid)),
                ("target", nameVal), ("type", Json.str "IS_NAMED")]])))) := by
        simp only [setdefaultAppend, hlookrel, hrel]
      refine ⟨_, rs0 ++ [Json.obj [("source", Json.str ("User_" ++ uid)),
        ("target", nameVal), ("type", Json.str "IS_NAMED")]], es ++ [rtUserEntity uid],
        by rw [hred, hsda2], ?_, by simp, ?_, by simp⟩
      · show jlookup _ "relationships" = _
        rw [jlookup_jset_of_isSome _ _ _ (by rw [hlookrel, hrel]; rfl)]
      · show jlookup _ "entities" = _
        rw [jlookup_jset_ne _ _ _ _ hnees, hlook1]
  · intro fields es hne hfe hpnone
    have htruthy : jsonTruthy (Json.obj fields) = true := by
      simp [jsonTruthy, hne]
    have hany : (fields.any (fun f => f.1 = "entities")) = true :=
      any_key_of_jlookup fields "entities" _ hfe
    have hsda : setdefaultAppend (Json.obj fields) "entities" (rtUserEntity uid)
        = some (Json.obj (jset fields "entities"
            (Json.arr (es ++ [rtUserEntity uid])))) := by
      simp [setdefaultAppend, hfe]
    have hlook1 : jlookup (jset fields "entities" (Json.arr (es ++ [rtUserEntity uid])))
        "entities" = some (Json.arr (es ++ [rtUserEntity uid])) :=
      jlookup_jset_of_isSome fields "entities" _ (by rw [hfe]; rfl)
    have hfp : findPersonEntity (es ++ [rtUserEntity uid]) = some none := by
      rw [findPersonEntity_append_none es _ hpnone]
      rfl
    simp only [realtimeFactsToStore, htruthy, if_true, jsonContains, hany,
      Bool.true_or, hsda, hlook1, hfp]
  · intro f g h
    unfold consolidationFactsToStore at h
    change (if jsonTruthy f = true then setdefaultAppend f "entities" (consUserEntity uid)
      else none) = some g at h
    by_cases ht : jsonTruthy f = true
    · rw [if_pos ht] at h
      cases f with
      | obj fields =>
        cases hl : jlookup fields "entities" with
        | none =>
          rw [show setdefaultAppend (Json.obj fields) "entities" (consUserEntity uid)
              = some (Json.obj (fields ++ [("entities", Json.arr [consUserEntity uid])]))
              from by simp [setdefaultAppend, hl]] at h
          cases h
          show jlookup _ "relationships" = jlookup fields "relationships"
          exact jlookup_append_ne fields "entities" "relationships" _ hners
        | some v =>
          cases v with
          | arr xs =>
            rw [show setdefaultAppend (Json.obj fields) "entities" (consUserEntity uid)
                = some (Json.obj (jset fields "entities"
                    (Json.arr (xs ++ [consUserEntity uid]))))
                from by simp [setdefaultAppend, hl]] at h
            cases h
            show jlookup _ "relationships" = jlookup fields "relationships"
            exact jlookup_jset_ne fields "entities" "relationships" _ hners
          | null => simp [setdefaultAppend, hl] at h
          | bool b => simp [setdefaultAppend, hl] at h
          | num n => simp [setdefaultAppend, hl] at h
          | str s => simp [setdefaultAppend, hl] at h
          | obj fs => simp [setdefaultAppend, hl] at h
      | null => simp [setdefaultAppend] at h
      | bool b => simp [setdefaultAppend] at h
      | num n => simp [setdefaultAppend] at h
      | str s => simp [setdefaultAppend] at h
      | arr xs => simp [setdefaultAppend] at h
    · rw [if_neg ht] at h
      cases h
  · intro fields hne
    have htruthy : jsonTruthy (Json.obj fields) = true := by
      simp [jsonTruthy, hne]
    constructor
    · intro hl
      simp only [consolidationFactsToStore, htruthy, if_true, setdefaultAppend, hl]
    · intro es0 hl
      simp only [consolidationFactsToStore, htruthy, if_true, setdefaultAppend, hl]

def c3personEntity : Json :=
  Json.obj [("name", Json.str "Alex"), ("label", Json.str "PERSON")]

/-- C3 (counterexample): a parsed graph containing a `PERSON` entity, run
through the consolidation path's post-processing, gets the `User` entity
appended but ends with no `relationships` key at all — no `IS_NAMED`
relationship is synthesized on that path, contrary to the claim that both
paths synthesize it. -/
theorem c3_counterexample :
    findPersonEntity [c3personEntity]
      = some (some [("name", Json.str "Alex"), ("label", Json.str "PERSON")])
    ∧ consolidationFactsToStore
        (some (Json.obj [("entities", Json.arr [c3personEntity])])) "u1"
      = some (Json.obj [("entities", Json.arr [c3personEntity, consUserEntity "u1"])])
    ∧ jsonGet (Json.obj [("entities", Json.arr [c3personEntity, consUserEntity "u1"])])
        "relationships" = none :=
  ⟨rfl, rfl, rfl⟩

/-- C3 (witness): the real-time path on the same graph does synthesize the
`IS_NAMED` relationship and injects the user entity. -/
theorem c3_postprocessing_witness :
    ∃ g rs esg, realtimeFactsToStore
        (some (Json.obj [("entities", Json.arr [c3personEntity])])) "u9" = some g
      ∧ jsonGet g "relationships" = some (Json.arr rs)
      ∧ Json.obj [("source", Json.str ("User_" ++ "u9")), ("target", Json.str "Alex"),
          ("type", Json.str "IS_NAMED")] ∈ rs
      ∧ jsonGet g "entities" = some (Json.arr esg)
      ∧ rtUserEntity "u9" ∈ esg :=
  (c3_postprocessing "u9").1 [("entities", Json.arr [c3personEntity])] [c3personEntity]
    [("name", Json.str "Alex"), ("label", Json.str "PERSON")] (Json.str "Alex")
    (by simp) rfl rfl rfl (Or.inl rfl)

/-! ## C5: idempotence of the consolidation pipeline -/

theorem insertNode_nodes_mono (g : Graph) (n m : GraphNode) (h : m ∈ g.nodes) :
    m ∈ (insertNode g n).nodes := by
  unfold insertNode
  split
  · exact h
  · exact List.mem_append_left _ h

theorem insertNode_self_mem (g : Graph) (n : GraphNode) : n ∈ (insertNode g n).nodes := by
  unfold insertNode
  split
  · assumption
  · exact List.mem_append_right _ (List.mem_singleton.2 rfl)

theorem foldl_insertNode_mono (ns : List GraphNode) :
    ∀ (g : Graph) (m : GraphNode), m ∈ g.nodes → m ∈ (ns.foldl insertNode g).nodes := by
  induction ns with
  | nil => intro g m h; exact h
  | cons n rest ih => intro g m h; exact ih _ _ (insertNode_nodes_mono g n m h)

theorem foldl_insertNode_mem (ns : List GraphNode) :
    ∀ (g : Graph) (n : GraphNode), n ∈ ns → n ∈ (ns.foldl insertNode g).nodes := by
  induction ns with
  | nil => intro g n h; cases h
  | cons n' rest ih =>
    intro g n h
    rcases List.mem_cons.1 h with rfl | h
    · exact foldl_insertNode_mono rest _ _ (insertNode_self_mem g n)
    · exact ih _ _ h

theorem insertNode_eq_of_mem (g : Graph) (n : GraphNode) (h : n ∈ g.nodes) :
    insertNode g n = g := by
  unfold insertNode
  rw [if_pos h]

theorem foldl_insertNode_eq (ns : List GraphNode) :
    ∀ g : Graph, (∀ n ∈ ns, n ∈ g.nodes) → ns.foldl insertNode g = g := by
  induction ns with
  | nil => intro g _; rfl
  | cons n rest ih =>
    intro g h
    rw [List.foldl_cons, insertNode_eq_of_mem g n (h n (List.mem_cons_self _ _))]
    exact ih g (fun m hm => h m (List.mem_cons_of_mem _ hm))

theorem mergeEdge_nodes (g : Graph) (r : String × String × String) :
    (mergeEdge g r).nodes = g.nodes := rfl

theorem foldl_mergeEdge_nodes (rs : List (String × String × String)) :
    ∀ g : Graph, (rs.foldl mergeEdge g).nodes = g.nodes := by
  induction rs with
  | nil => intro g; rfl
  | cons r rest ih => intro g; rw [List.foldl_cons, ih, mergeEdge_nodes]

theorem insertEdge_mono (es : List GraphEdge) (e e' : GraphEdge) (h : e' ∈ es) :
    e' ∈ insertEdge es e := by
  unfold insertEdge
  split
  · exact h
  · exact List.mem_append_left _ h

theorem insertEdge_self_mem (es : List GraphEdge) (e : GraphEdge) : e ∈ insertEdge es e := by
  unfold insertEdge
  split
  · assumption
  · exact List.mem_append_right _ (List.mem_singleton.2 rfl)

theorem foldl_insertEdge_mono (cs : List GraphEdge) :
    ∀ (es : List GraphEdge) (e : GraphEdge), e ∈ es → e ∈ cs.foldl insertEdge es := by
  induction cs with
  | nil => intro es e h; exact h
  | cons c rest ih => intro es e h; exact ih _ _ (insertEdge_mono es c e h)

theorem foldl_insertEdge_mem (cs : List GraphEdge) :
    ∀ (es : List GraphEdge) (c : GraphEdge), c ∈ cs → c ∈ cs.foldl insertEdge es := by
  induction cs with
  | nil => intro es c h; cases h
  | cons c' rest ih =>
    intro es c h
    rcases List.mem_cons.1 h with rfl | h
    · exact foldl_insertEdge_mono rest _ _ (insertEdge_self_mem es c)
    · exact ih _ _ h

theorem insertEdge_eq_of_mem (es : List GraphEdge) (e : GraphEdge) (h : e ∈ es) :
    insertEdge es e = es := by
  unfold insertEdge
  rw [if_pos h]

theorem foldl_insertEdge_eq (cs : List GraphEdge) :
    ∀ es : List GraphEdge, (∀ c ∈ cs, c ∈ es) → cs.foldl insertEdge es = es := by
  induction cs with
  | nil => intro es _; rfl
  | cons c rest ih =>
    intro es h
    rw [List.foldl_cons, insertEdge_eq_of_mem es c (h c (List.mem_cons_self _ _))]
    exact ih es (fun c' hc' => h c' (List.mem_cons_of_mem _ hc'))

theorem mergeEdge_edges_mono (g : Graph) (r : String × String × String) (e : GraphEdge)
    (h : e ∈ g.edges) : e ∈ (mergeEdge g r).edges :=
  foldl_insertEdge_mono _ _ _ h

theorem foldl_mergeEdge_edges_mono (rs : List (String × String × String)) :
    ∀ (g : Graph) (e : GraphEdge), e ∈ g.edges → e ∈ (rs.foldl mergeEdge g).edges := by
  induction rs with
  | nil => intro g e h; exact h
  | cons r rest ih => intro g e h; exact ih _ _ (mergeEdge_edges_mono g r e h)

theorem mergeEdge_candidates_mem (g : Graph) (r : String × String × String) :
    ∀ c ∈ edgeCandidates g.nodes r.1 r.2.1 r.2.2, c ∈ (mergeEdge g r).edges :=
  fun c hc => foldl_insertEdge_mem _ _ c hc

theorem mergeEdge_eq_of_subset (g : Graph) (r : String × String × String)
    (h : ∀ c ∈ edgeCandidates g.nodes r.1 r.2.1 r.2.2, c ∈ g.edges) :
    mergeEdge g r = g := by
  unfold mergeEdge
  rw [foldl_insertEdge_eq _ _ h]

theorem foldl_mergeEdge_candidates (rs : List (String × String × String)) :
    ∀ (g : Graph) (N : List GraphNode), g.nodes = N →
      ∀ r ∈ rs, ∀ c ∈ edgeCandidates N r.1 r.2.1 r.2.2,
        c ∈ (rs.foldl mergeEdge g).edges := by
  induction rs with
  | nil => intro g N hN r hr; cases hr
  | cons r0 rest ih =>
    intro g N hN r hr c hc
    rcases List.mem_cons.1 hr with rfl | hr
    · rw [List.foldl_cons]
      apply foldl_mergeEdge_edges_mono
      apply mergeEdge_candidates_mem
      rw [hN]
      exact hc
    · rw [List.foldl_cons]
      exact ih (mergeEdge g r0) N (by rw [mergeEdge_nodes, hN]) r hr c hc

theorem foldl_mergeEdge_eq (rs : List (String × String × String)) :
    ∀ g : Graph, (∀ r ∈ rs, ∀ c ∈ edgeCandidates g.nodes r.1 r.2.1 r.2.2, c ∈ g.edges) →
      rs.foldl mergeEdge g = g := by
  induction rs with
  | nil => intro g _; rfl
  | cons r0 rest ih =>
    intro g h
    rw [List.foldl_cons, mergeEdge_eq_of_subset g r0 (h r0 (List.mem_cons_self _ _))]
    exact ih g (fun r hr => h r (List.mem_cons_of_mem _ hr))

/-- Re-running one write transaction with the same entities and
relationships changes nothing: the entity `MERGE`s find every node already
present, so the node set is unchanged, and each relationship `MERGE` then
matches exactly the node pairs it matched in the first run, whose edges are
already present. -/
theorem create_graph_nodes_and_edges_idem (g : Graph) (entities rels : List Json) :
    create_graph_nodes_and_edges (create_graph_nodes_and_edges g entities rels)
      entities rels = create_graph_nodes_and_edges g entities rels := by
  unfold create_graph_nodes_and_edges
  cases he : entities.mapM entityOfJson with
  | none => rfl
  | some ns =>
    cases hr : rels.mapM relOfJson with
    | none => rfl
    | some rs =>
      simp only
      have hn2 : (rs.foldl mergeEdge (ns.foldl insertNode g)).nodes
          = (ns.foldl insertNode g).nodes := foldl_mergeEdge_nodes rs _
      have hstep1 : ns.foldl insertNode (rs.foldl mergeEdge (ns.foldl insertNode g))
          = rs.foldl mergeEdge (ns.foldl insertNode g) :=
        foldl_insertNode_eq ns _ (fun n hn => by
          rw [hn2]
          exact foldl_insertNode_mem ns g n hn)
      rw [hstep1]
      exact foldl_mergeEdge_eq rs _ (fun r hr' c hc => by
        rw [hn2] at hc
        exact foldl_mergeEdge_candidates rs (ns.foldl insertNode g) _ rfl r hr' c hc)

theorem add_entities_and_relationships_idem (driverReady : Bool) (g : Graph)
    (facts : Json) :
    add_entities_and_relationships driverReady
      (add_entities_and_relationships driverReady g facts) facts
    = add_entities_and_relationships driverReady g facts := by
  unfold add_entities_and_relationships
  cases he : jsonGetArr facts "entities" with
  | none => rfl
  | some es =>
    cases hr : jsonGetArr facts "relationships" with
    | none => rfl
    | some rs =>
      simp only
      by_cases hempty : (es.isEmpty && rs.isEmpty) = true
      · rw [if_pos hempty, if_pos hempty]
      · rw [if_neg hempty, if_neg hempty]
        cases driverReady with
        | false => rw [if_neg (by simp), if_neg (by simp)]
        | true =>
          rw [if_pos rfl, if_pos rfl]
          exact create_graph_nodes_and_edges_idem g es rs

theorem pipelineGraph_idem (env : PipelineEnv) (g : Graph) (uid transcript : String) :
    pipelineGraph env (pipelineGraph env g uid transcript) uid transcript
      = pipelineGraph env g uid transcript := by
  unfold pipelineGraph
  cases h : consolidationFactsToStore (env.extract transcript) uid with
  | none => rfl
  | some f => exact add_entities_and_relationships_idem env.graphReady g f

theorem vupsert_idem (m : VecStore) (k : String) (v : List Int) (s : String) :
    vupsert (vupsert m k v s) k v s = vupsert m k v s := by
  induction m with
  | nil => simp [vupsert]
  | cons e rest ih =>
    by_cases h : e.1 = k
    · simp [vupsert, h]
    · simp [vupsert, h, ih]

theorem upsert_session_summary_idem (ir : Bool) (embed : String → Option (List Int))
    (store : VecStore) (sid summary : String) :
    upsert_session_summary ir embed
      (upsert_session_summary ir embed store sid summary) sid summary
    = upsert_session_summary ir embed store sid summary := by
  unfold upsert_session_summary
  cases ir with
  | false => rfl
  | true =>
    cases he : embed summary with
    | none => simp [he]
    | some v =>
      by_cases hv : v.isEmpty = true
      · simp [he, hv]
      · simp [he, hv, vupsert_idem]

theorem task_found (env : PipelineEnv) (w : World) (sid : String) (s : Session)
    (hf : find_one w.sessions sid = some s) :
    summarize_and_archive_task env w sid =
      if fullTranscript s.messages = "" then
        { sessions := if env.archiveOk then setArchived w.sessions sid else w.sessions,
          graph := w.graph,
          vec := upsert_session_summary env.vecReady env.embed w.vec sid
            "No content to summarize." }
      else
        { sessions := if env.archiveOk then setArchived w.sessions sid else w.sessions,
          graph := pipelineGraph env w.graph s.userId (fullTranscript s.messages),
          vec := upsert_session_summary env.vecReady env.embed w.vec sid
            (pipelineSummary env (fullTranscript s.messages)) } := by
  unfold summarize_and_archive_task
  rw [hf]

/-- C5: with the summarizer, extractor and embedder viewed as deterministic
functions of their inputs, running `summarize_and_archive_task` twice on
the same session leaves the graph store and the vector store exactly as one
run does: the vector upsert is keyed by the session id (overwriting, never
duplicating), and re-merging the same `(name, label)` node tuples and
`(source, target, type)` relationship tuples is a no-op. -/
theorem c5_pipeline_idempotent (env : PipelineEnv) (w : World) (sid : String) :
    (summarize_and_archive_task env (summarize_and_archive_task env w sid) sid).graph
      = (summarize_and_archive_task env w sid).graph
    ∧ (summarize_and_archive_task env (summarize_and_archive_task env w sid) sid).vec
      = (summarize_and_archive_task env w sid).vec := by
  cases hf : find_one w.sessions sid with
  | none =>
    have h1 : summarize_and_archive_task env w sid = w := by
      unfold summarize_and_archive_task
      rw [hf]
    simp [h1]
  | some s =>
    have hsess1 : (summarize_and_archive_task env w sid).sessions
        = if env.archiveOk then setArchived w.sessions sid else w.sessions := by
      rw [task_found env w sid s hf]
      by_cases ht : fullTranscript s.messages = "" <;> simp [ht]
    have hfind1 : ∃ s', find_one (summarize_and_archive_task env w sid).sessions sid
        = some s' ∧ s'.messages = s.messages ∧ s'.userId = s.userId := by
      rw [hsess1]
      cases env.archiveOk with
      | false => exact ⟨s, by simpa using hf, rfl, rfl⟩
      | true =>
        refine ⟨{ s with isArchived := true }, ?_, rfl, rfl⟩
        simp [find_one_setArchived, hf]
    rcases hfind1 with ⟨s', hfind', hmsg, huid⟩
    rw [task_found env (summarize_and_archive_task env w sid) sid s' hfind',
      task_found env w sid s hf, hmsg, huid]
    by_cases ht : fullTranscript s.messages = ""
    · simp only [ht, if_pos rfl]
      exact ⟨rfl, upsert_session_summary_idem env.vecReady env.embed w.vec sid _⟩
    · simp only [if_neg ht]
      exact ⟨pipelineGraph_idem env w.graph s.userId (fullTranscript s.messages),
        upsert_session_summary_idem env.vecReady env.embed w.vec sid _⟩
